import Mathlib

/-!
Shallow embedding of the geth-proxy head tracker and health reporter
(main.go), together with a spec-modelled best-set construction for the
multi-upstream poller described in the specification.

Time is modelled as an integer count of nanoseconds since the Unix epoch.
Durations follow the Go semantics: a Duration is a signed 64-bit nanosecond
count, and the subtraction of two instants saturates at the int64 bounds.
-/

namespace GethProxy

/-- The constant 2^63 as a natural number. -/
def twoPow63 : Nat := 9223372036854775808

/-- The constant 2^64 as a natural number. -/
def twoPow64 : Nat := 18446744073709551616

/-- Largest value of a signed 64-bit integer (Go math.MaxInt64). -/
def int64Max : Int := 9223372036854775807

/-- Smallest value of a signed 64-bit integer (Go math.MinInt64). -/
def int64Min : Int := -9223372036854775808

/-- Reinterpret a 64-bit unsigned value as a signed 64-bit integer, the
effect of the Go conversion int64(x) for x of type uint64. -/
def toInt64 (n : Nat) : Int :=
  if n % twoPow64 < twoPow63 then ((n % twoPow64 : Nat) : Int)
  else ((n % twoPow64 : Nat) : Int) - (twoPow64 : Int)

/-- The Go conversion uint64(d) for d of type time.Duration (int64):
two-complement reinterpretation, that is reduction modulo 2^64. -/
def u64ofInt (d : Int) : Nat := (d % (twoPow64 : Int)).toNat

/-- Result of time.Since(t) at instant now, in nanoseconds: the difference
now - t saturated at the int64 bounds, the Go time.Time.Sub semantics. -/
def timeSince (now t : Int) : Int :=
  if int64Max < now - t then int64Max
  else if now - t < int64Min then int64Min
  else now - t

/-- One nanosecond-count second: Go time.Second. -/
def second : Int := 1000000000

/-- The fields of a chain head block that the proxy reads: the block number
and the chain-reported timestamp block.Time(), a uint64. -/
structure Block where
  number : Nat
  time : Nat
deriving DecidableEq

/-- Outcome of one attempted ethClient.BlockByNumber call at the moment the
call is issued: a block, or an RPC error. -/
inductive FetchResult where
  | ok (b : Block)
  | err
deriving DecidableEq

/-- The shared lastBlock cell of main.go: the cached head block (nil at
startup, hence an Option) and the instant of the last successful fetch. -/
structure LastBlockState where
  block : Option Block
  updatedAt : Int
deriving DecidableEq

/-- getLastBlock of main.go. Given the current instant, the outcome a fetch
would have if issued now, and the cached state, it returns the pair the Go
function returns (the block pointer and whether the error is non-nil), the
state of the cache afterwards, and the number of network calls issued. -/
def getLastBlock (now : Int) (fetch : FetchResult) (s : LastBlockState) :
    (Option Block × Bool) × LastBlockState × Nat :=
  if timeSince now s.updatedAt < second then ((s.block, false), s, 0)
  else
    match fetch with
    | .err => ((s.block, true), s, 1)
    | .ok b => ((some b, false), ⟨some b, now⟩, 1)

/-- The head instant computed by isReady of main.go from a block timestamp:
ts * uint64(blockDuration) in wrapping 64-bit unsigned arithmetic, then
reinterpreted as a signed 64-bit nanosecond count by time.Unix(0, int64(ts)). -/
def headTimeNs (ts : Nat) (blockUnit : Int) : Int :=
  toInt64 (ts * u64ofInt blockUnit % twoPow64)

/-- What a call of isReady of main.go produces: the (ready, err) pair it
returns, or a nil dereference when getLastBlock yields no block and no
error. -/
inductive ReadyOutcome where
  | result (ready : Bool) (hasError : Bool)
  | nilDeref
deriving DecidableEq

/-- isReady of main.go: fetch the head through getLastBlock; on error return
(false, err); otherwise compare the age of the computed head instant with
healthyDuration. Also returns the cache state afterwards and the number of
network calls issued. -/
def isReady (now : Int) (fetch : FetchResult) (blockUnit healthy : Int)
    (s : LastBlockState) : ReadyOutcome × LastBlockState × Nat :=
  let r := getLastBlock now fetch s
  if r.1.2 then (.result false true, r.2)
  else
    match r.1.1 with
    | none => (.nilDeref, r.2)
    | some b =>
        (.result (decide (timeSince now (headTimeNs b.time blockUnit) < healthy)) false, r.2)

/-- isLive of main.go: fetch the head through getLastBlock and report whether
the error is nil. Also returns the cache state afterwards and the number of
network calls issued. -/
def isLive (now : Int) (fetch : FetchResult) (s : LastBlockState) :
    Bool × LastBlockState × Nat :=
  let r := getLastBlock now fetch s
  (!r.1.2, r.2)

/-- healthz of main.go: in readiness mode (query parameter ready=1) answer
from isReady, in liveness mode answer from isLive. The response is a status
code and body; none models the nil dereference inside isReady. -/
def healthz (readyParam : Bool) (now : Int) (fetch : FetchResult)
    (blockUnit healthy : Int) (s : LastBlockState) :
    Option ((Nat × String) × LastBlockState × Nat) :=
  if readyParam then
    let r := isReady now fetch blockUnit healthy s
    match r.1 with
    | .nilDeref => none
    | .result _ true => some ((500, "can not get block"), r.2)
    | .result false false => some ((500, "not ready"), r.2)
    | .result true false => some ((200, "ready"), r.2)
  else
    let r := isLive now fetch s
    if r.1 then some ((200, "ok"), r.2)
    else some ((500, "not ok"), r.2)

/-- An upstream node descriptor, identified by its address. -/
structure Upstream where
  addr : String
deriving DecidableEq

/-- Modelled from the spec: the poller step computing the maximum collected
block number. The multi-upstream poller is absent from src (only the
single-upstream tracker exists there); the spec says it computes
maxBlock as the maximum of all collected block numbers, upstreams that
errored with no prior cache contributing block number 0. -/
def maxBlock (collected : List (Upstream × Nat)) : Nat :=
  (collected.map Prod.snd).foldr max 0

/-- Modelled from the spec: the poller step building the new BestSet, absent
from src. The spec says it consists of all upstreams whose collected block
number equals maxBlock, in the original order of the registry; collected is
the registry-ordered list of upstreams paired with their collected numbers. -/
def bestSet (collected : List (Upstream × Nat)) : List Upstream :=
  (collected.filter fun p => p.2 == maxBlock collected).map Prod.fst

/-! Helper lemmas shared by the claim theorems. -/

theorem getLastBlock_fresh (now : Int) (fetch : FetchResult) (s : LastBlockState)
    (h : timeSince now s.updatedAt < second) :
    getLastBlock now fetch s = ((s.block, false), s, 0) := by
  simp only [getLastBlock]
  rw [if_pos h]

theorem getLastBlock_stale_err (now : Int) (s : LastBlockState)
    (h : second ≤ timeSince now s.updatedAt) :
    getLastBlock now .err s = ((s.block, true), s, 1) := by
  simp only [getLastBlock]
  rw [if_neg (not_lt.mpr h)]

theorem getLastBlock_stale_ok (now : Int) (b : Block) (s : LastBlockState)
    (h : second ≤ timeSince now s.updatedAt) :
    getLastBlock now (.ok b) s = ((some b, false), ⟨some b, now⟩, 1) := by
  simp only [getLastBlock]
  rw [if_neg (not_lt.mpr h)]

theorem timeSince_lt_iff (now t c : Int) (h1 : int64Min < c) (h2 : c ≤ int64Max) :
    timeSince now t < c ↔ now - t < c := by
  simp only [timeSince, int64Max, int64Min] at *
  split_ifs <;> omega

theorem u64ofInt_eq (d : Int) (h0 : 0 ≤ d) (h1 : d < (twoPow64 : Int)) :
    u64ofInt d = d.toNat := by
  simp only [u64ofInt, twoPow64] at *
  omega

theorem headTime_mul_eq (ts : Nat) (u : Int) (h0 : 0 ≤ u)
    (h1 : u < (twoPow63 : Int)) (h : (ts : Int) * u < (twoPow63 : Int)) :
    headTimeNs ts u = (ts : Int) * u := by
  have hu64 : u64ofInt u = u.toNat := by
    refine u64ofInt_eq u h0 ?_
    simp only [twoPow63, twoPow64] at *
    omega
  have hcast : ((ts * u.toNat : Nat) : Int) = (ts : Int) * u := by
    push_cast [Int.toNat_of_nonneg h0]
    ring
  have hlt : ts * u.toNat < twoPow63 := by
    have h2 := h
    rw [← hcast] at h2
    exact_mod_cast h2
  have hmod : ts * u.toNat % twoPow64 = ts * u.toNat := by
    refine Nat.mod_eq_of_lt ?_
    simp only [twoPow63, twoPow64] at *
    omega
  simp only [headTimeNs, hu64, hmod, toInt64]
  rw [if_pos hlt]
  exact hcast

theorem getLastBlock_noerror_block (now : Int) (fetch : FetchResult)
    (s : LastBlockState) (h : (getLastBlock now fetch s).1.2 = false) :
    (getLastBlock now fetch s).1.1 = (getLastBlock now fetch s).2.1.block ∧
    (getLastBlock now fetch s).2.2 ≤ 1 := by
  by_cases hf : timeSince now s.updatedAt < second
  · rw [getLastBlock_fresh now fetch s hf]
    exact ⟨rfl, Nat.zero_le 1⟩
  · have hs : second ≤ timeSince now s.updatedAt := not_lt.mp hf
    cases fetch with
    | err =>
        rw [getLastBlock_stale_err now s hs] at h
        simp at h
    | ok b =>
        rw [getLastBlock_stale_ok now b s hs]
        exact ⟨rfl, le_refl 1⟩

/-! Claim theorems. -/

/-- C2: a getLastBlock call with a cached snapshot younger than one second
returns the cached snapshot unchanged and issues no network call; otherwise
it issues exactly one fetch. -/
theorem getLastBlock_fetch_policy (now : Int) (fetch : FetchResult)
    (s : LastBlockState) :
    (timeSince now s.updatedAt < second →
      getLastBlock now fetch s = ((s.block, false), s, 0)) ∧
    (second ≤ timeSince now s.updatedAt →
      (getLastBlock now fetch s).2.2 = 1) := by
  constructor
  · intro h
    exact getLastBlock_fresh now fetch s h
  · intro h
    cases fetch with
    | err => rw [getLastBlock_stale_err now s h]
    | ok b => rw [getLastBlock_stale_ok now b s h]

theorem getLastBlock_fetch_policy_witness :
    getLastBlock 5 .err ⟨some ⟨7, 5⟩, 0⟩ = ((some ⟨7, 5⟩, false), ⟨some ⟨7, 5⟩, 0⟩, 0) ∧
    (getLastBlock 2000000000 .err ⟨some ⟨7, 5⟩, 0⟩).2.2 = 1 := by
  have h1 := getLastBlock_fetch_policy 5 .err ⟨some ⟨7, 5⟩, 0⟩
  have h2 := getLastBlock_fetch_policy 2000000000 .err ⟨some ⟨7, 5⟩, 0⟩
  exact ⟨h1.1 (by decide), h2.2 (by decide)⟩

/-- C3: a getLastBlock call whose fetch fails returns the previous cached
snapshot (possibly nil) together with the error, and leaves the cached
Block and UpdatedAt unchanged. -/
theorem getLastBlock_failure_keeps_cache (now : Int) (s : LastBlockState)
    (h : second ≤ timeSince now s.updatedAt) :
    getLastBlock now .err s = ((s.block, true), s, 1) :=
  getLastBlock_stale_err now s h

theorem getLastBlock_failure_keeps_cache_witness :
    getLastBlock 2000000000 .err ⟨some ⟨7, 5⟩, 0⟩ =
      ((some ⟨7, 5⟩, true), ⟨some ⟨7, 5⟩, 0⟩, 1) :=
  getLastBlock_failure_keeps_cache 2000000000 ⟨some ⟨7, 5⟩, 0⟩ (by decide)

/-- C7: the cached UpdatedAt never decreases across a getLastBlock call when
the call happens no earlier than the last update, the cache is untouched by
fresh reads, and any mutation of the cache comes from a successful fetch,
which installs the fetched block with UpdatedAt equal to the call instant. -/
theorem updatedAt_monotone (now : Int) (fetch : FetchResult) (s : LastBlockState)
    (h : s.updatedAt ≤ now) :
    s.updatedAt ≤ (getLastBlock now fetch s).2.1.updatedAt ∧
    (timeSince now s.updatedAt < second → (getLastBlock now fetch s).2.1 = s) ∧
    ((getLastBlock now fetch s).2.1 ≠ s →
      ∃ b, fetch = .ok b ∧ (getLastBlock now fetch s).2.1 = ⟨some b, now⟩) := by
  by_cases hf : timeSince now s.updatedAt < second
  · rw [getLastBlock_fresh now fetch s hf]
    exact ⟨le_refl _, fun _ => rfl, fun hne => absurd rfl hne⟩
  · have hs : second ≤ timeSince now s.updatedAt := not_lt.mp hf
    cases fetch with
    | err =>
        rw [getLastBlock_stale_err now s hs]
        exact ⟨le_refl _, fun h2 => absurd h2 hf, fun hne => absurd rfl hne⟩
    | ok b =>
        rw [getLastBlock_stale_ok now b s hs]
        exact ⟨h, fun h2 => absurd h2 hf, fun _ => ⟨b, rfl, rfl⟩⟩

theorem updatedAt_monotone_witness :
    (0 : Int) ≤ (getLastBlock 5 .err ⟨none, 0⟩).2.1.updatedAt ∧
    (timeSince 5 (0 : Int) < second → (getLastBlock 5 .err ⟨none, 0⟩).2.1 = ⟨none, 0⟩) ∧
    ((getLastBlock 5 .err ⟨none, 0⟩).2.1 ≠ ⟨none, 0⟩ →
      ∃ b, FetchResult.err = .ok b ∧ (getLastBlock 5 .err ⟨none, 0⟩).2.1 = ⟨some b, 5⟩) :=
  updatedAt_monotone 5 .err ⟨none, 0⟩ (by decide)

/-- C10: while the cached snapshot is younger than one second, isLive reports
live without issuing any fetch and leaves the cache unchanged, whatever the
upstream would answer if asked. -/
theorem isLive_fresh_no_fetch (now : Int) (fetch : FetchResult) (s : LastBlockState)
    (h : timeSince now s.updatedAt < second) :
    (isLive now fetch s).1 = true ∧ (isLive now fetch s).2 = (s, 0) := by
  simp [isLive, getLastBlock_fresh now fetch s h]

theorem isLive_fresh_no_fetch_witness :
    (isLive 5 .err ⟨some ⟨3, 4⟩, 0⟩).1 = true ∧
    (isLive 5 .err ⟨some ⟨3, 4⟩, 0⟩).2 = (⟨some ⟨3, 4⟩, 0⟩, 0) :=
  isLive_fresh_no_fetch 5 .err ⟨some ⟨3, 4⟩, 0⟩ (by decide)

/-- C4: isLive reports live exactly when getLastBlock returns a nil error;
when the cache is stale and the sole fetch fails, liveness is false whatever
block is cached, and the health endpoint answers status 500 with reason
text. -/
theorem isLive_iff_no_error (now blockUnit healthy : Int) (fetch : FetchResult)
    (s : LastBlockState) :
    ((isLive now fetch s).1 = true ↔ (getLastBlock now fetch s).1.2 = false) ∧
    (second ≤ timeSince now s.updatedAt →
      (isLive now .err s).1 = false ∧
      healthz false now .err blockUnit healthy s = some ((500, "not ok"), s, 1)) := by
  constructor
  · simp [isLive]
  · intro h
    have hg := getLastBlock_stale_err now s h
    constructor
    · simp [isLive, hg]
    · simp [healthz, isLive, hg]

theorem isLive_iff_no_error_witness :
    ((isLive 2000000000 .err ⟨some ⟨7, 5⟩, 0⟩).1 = true ↔
      (getLastBlock 2000000000 .err ⟨some ⟨7, 5⟩, 0⟩).1.2 = false) ∧
    ((isLive 2000000000 .err ⟨some ⟨7, 5⟩, 0⟩).1 = false ∧
      healthz false 2000000000 .err 1000000000 60000000000 ⟨some ⟨7, 5⟩, 0⟩ =
        some ((500, "not ok"), ⟨some ⟨7, 5⟩, 0⟩, 1)) := by
  have h := isLive_iff_no_error 2000000000 1000000000 60000000000 .err ⟨some ⟨7, 5⟩, 0⟩
  exact ⟨h.1, h.2 (by decide)⟩

/-- C5: when getLastBlock reports an error, isReady returns false together
with that error, and the readiness health endpoint answers status 500 with
the reason text, never a ready answer. -/
theorem isReady_error_reported (now blockUnit healthy : Int) (fetch : FetchResult)
    (s : LastBlockState) (herr : (getLastBlock now fetch s).1.2 = true) :
    (isReady now fetch blockUnit healthy s).1 = .result false true ∧
    healthz true now fetch blockUnit healthy s =
      some ((500, "can not get block"), (getLastBlock now fetch s).2) := by
  constructor
  · simp [isReady, herr]
  · simp [healthz, isReady, herr]

theorem isReady_error_reported_witness :
    (isReady 2000000000 .err 1000000000 60000000000 ⟨some ⟨7, 5⟩, 0⟩).1 =
      .result false true ∧
    healthz true 2000000000 .err 1000000000 60000000000 ⟨some ⟨7, 5⟩, 0⟩ =
      some ((500, "can not get block"),
        (getLastBlock 2000000000 .err ⟨some ⟨7, 5⟩, 0⟩).2) :=
  isReady_error_reported 2000000000 1000000000 60000000000 .err ⟨some ⟨7, 5⟩, 0⟩
    (by decide)

/-- C1 (amended): for a readiness query that obtains a head snapshot without
error, with a block unit in [0, 2^63) nanoseconds, a healthy duration within
the int64 range, and a product blockTimestamp * blockUnit below 2^63
nanoseconds, the query is ready exactly when now minus that product is less
than the healthy duration. -/
theorem isReady_ready_iff (now : Int) (fetch : FetchResult)
    (blockUnit healthy : Int) (s : LastBlockState) (b : Block)
    (hget : (getLastBlock now fetch s).1 = (some b, false))
    (hu0 : 0 ≤ blockUnit) (hu1 : blockUnit < (twoPow63 : Int))
    (hno : (b.time : Int) * blockUnit < (twoPow63 : Int))
    (hh1 : int64Min < healthy) (hh2 : healthy ≤ int64Max) :
    (isReady now fetch blockUnit healthy s).1 =
      .result (decide (now - (b.time : Int) * blockUnit < healthy)) false := by
  have hht : headTimeNs b.time blockUnit = (b.time : Int) * blockUnit :=
    headTime_mul_eq b.time blockUnit hu0 hu1 hno
  have hts : (timeSince now ((b.time : Int) * blockUnit) < healthy) ↔
      (now - (b.time : Int) * blockUnit < healthy) :=
    timeSince_lt_iff now ((b.time : Int) * blockUnit) healthy hh1 hh2
  have hb : (getLastBlock now fetch s).1.1 = some b := by rw [hget]
  have he : (getLastBlock now fetch s).1.2 = false := by rw [hget]
  simp only [isReady, he, hb, hht, Bool.false_eq_true, if_false]
  rw [decide_eq_decide.mpr hts]

theorem isReady_ready_iff_witness :
    (isReady 1700000061000000000 .err 1000000000 60000000000
      ⟨some ⟨1, 1700000000⟩, 1700000061000000000⟩).1 = .result false false ∧
    (isReady 1700000059000000000 .err 1000000000 60000000000
      ⟨some ⟨1, 1700000000⟩, 1700000059000000000⟩).1 = .result true false := by
  have h1 := isReady_ready_iff 1700000061000000000 .err 1000000000 60000000000
    ⟨some ⟨1, 1700000000⟩, 1700000061000000000⟩ ⟨1, 1700000000⟩
    (by decide) (by decide) (by decide) (by decide) (by decide) (by decide)
  have h2 := isReady_ready_iff 1700000059000000000 .err 1000000000 60000000000
    ⟨some ⟨1, 1700000000⟩, 1700000059000000000⟩ ⟨1, 1700000000⟩
    (by decide) (by decide) (by decide) (by decide) (by decide) (by decide)
  rw [h1, h2]
  exact ⟨by norm_num, by norm_num⟩

/-- C1 counterexample: a readiness query that obtains its head snapshot
without error, whose blockTimestamp times blockUnit reaches 2^63
nanoseconds, reports not-ready although now minus the true product is below
the healthy duration: the claimed equivalence fails as stated. Here the
timestamp is 9223372037 seconds with a one-second block unit and the query
runs at that very instant. -/
theorem isReady_overflow_counterexample :
    (isReady 9223372037000000000 (.ok ⟨1, 9223372037⟩) 1000000000 60000000000
      ⟨none, 0⟩).1 = .result false false ∧
    ((9223372037000000000 : Int) - ((9223372037 : Nat) : Int) * 1000000000
      < 60000000000) := by
  constructor
  · decide
  · decide

/-- C6 (amended): when a first getLastBlock call returns without error and a
second call happens while the cache left by the first call is still fresh
(younger than one second), the second call returns the identical snapshot,
issues no network call, and the pair issues at most one network call in
total. Proximity of the two calls alone does not suffice: freshness is
measured from the cached UpdatedAt, and a failed first call leaves the cache
stale. -/
theorem getLastBlock_pair_cached (t1 t2 : Int) (f1 f2 : FetchResult)
    (s : LastBlockState)
    (h1 : (getLastBlock t1 f1 s).1.2 = false)
    (h2 : timeSince t2 (getLastBlock t1 f1 s).2.1.updatedAt < second) :
    (getLastBlock t2 f2 (getLastBlock t1 f1 s).2.1).1.1 =
      (getLastBlock t1 f1 s).1.1 ∧
    (getLastBlock t2 f2 (getLastBlock t1 f1 s).2.1).2.2 = 0 ∧
    (getLastBlock t1 f1 s).2.2 ≤ 1 := by
  have hkey := getLastBlock_noerror_block t1 f1 s h1
  rw [getLastBlock_fresh t2 f2 _ h2]
  exact ⟨hkey.1.symm, rfl, hkey.2⟩

theorem getLastBlock_pair_cached_witness :
    (getLastBlock 500000000 .err
        (getLastBlock 0 (.ok ⟨100, 50⟩) ⟨none, -10000000000⟩).2.1).1.1 =
      (getLastBlock 0 (.ok ⟨100, 50⟩) ⟨none, -10000000000⟩).1.1 ∧
    (getLastBlock 500000000 .err
        (getLastBlock 0 (.ok ⟨100, 50⟩) ⟨none, -10000000000⟩).2.1).2.2 = 0 ∧
    (getLastBlock 0 (.ok ⟨100, 50⟩) ⟨none, -10000000000⟩).2.2 ≤ 1 :=
  getLastBlock_pair_cached 0 500000000 (.ok ⟨100, 50⟩) .err ⟨none, -10000000000⟩
    (by decide) (by decide)

/-- C6 counterexample: two getLastBlock calls half a second apart, both on a
cache last updated two seconds earlier. The first fetch fails, the second
succeeds with a newer block: the calls return different snapshots and issue
two network calls, refuting the claim as stated for calls within one second
of each other. -/
theorem getLastBlock_within_second_counterexample :
    ((2500000000 : Int) - 2000000000 < second) ∧
    (getLastBlock 2000000000 .err ⟨some ⟨100, 50⟩, 0⟩).1.1 ≠
      (getLastBlock 2500000000 (.ok ⟨101, 60⟩)
        (getLastBlock 2000000000 .err ⟨some ⟨100, 50⟩, 0⟩).2.1).1.1 ∧
    (getLastBlock 2000000000 .err ⟨some ⟨100, 50⟩, 0⟩).2.2 +
      (getLastBlock 2500000000 (.ok ⟨101, 60⟩)
        (getLastBlock 2000000000 .err ⟨some ⟨100, 50⟩, 0⟩).2.1).2.2 = 2 := by
  refine ⟨by decide, by decide, by decide⟩

/-- C8: after a poll cycle, the best set consists exactly of the upstreams
whose collected block number equals the maximum collected block number: every
member comes from a collected pair carrying the maximum (so no member has a
lower number), every upstream collected at the maximum is a member, and the
best set preserves the original registry order (it is a sublist of the
registry projection). -/
theorem bestSet_members (collected : List (Upstream × Nat)) :
    (∀ u, u ∈ bestSet collected →
      ∃ p, p ∈ collected ∧ p.1 = u ∧ p.2 = maxBlock collected) ∧
    (∀ p, p ∈ collected → p.2 = maxBlock collected → p.1 ∈ bestSet collected) ∧
    List.Sublist (bestSet collected) (List.map Prod.fst collected) := by
  refine ⟨?_, ?_, ?_⟩
  · intro u hu
    simp only [bestSet, List.mem_map] at hu
    obtain ⟨p, hp, hpu⟩ := hu
    rw [List.mem_filter] at hp
    exact ⟨p, hp.1, hpu, by simpa using hp.2⟩
  · intro p hp hmax
    simp only [bestSet, List.mem_map]
    exact ⟨p, List.mem_filter.mpr ⟨hp, by simpa using hmax⟩, rfl⟩
  · exact List.Sublist.map Prod.fst (List.filter_sublist collected)

theorem bestSet_members_witness :
    (⟨"u2"⟩ : Upstream) ∈
      bestSet [(⟨"u1"⟩, 100), (⟨"u2"⟩, 102), (⟨"u3"⟩, 102)] :=
  (bestSet_members [(⟨"u1"⟩, 100), (⟨"u2"⟩, 102), (⟨"u3"⟩, 102)]).2.1
    (⟨"u2"⟩, 102) (by simp) (by decide)

/-- C9: the head time is the 64-bit wrapping product of the block timestamp
and the block unit reinterpreted as a signed 64-bit nanosecond count; for a
nonnegative block unit below 2^63 and a product below 2^63 nanoseconds it
equals the exact product blockTimestamp * blockUnit since the Unix epoch. -/
theorem headTimeNs_exact (ts : Nat) (blockUnit : Int) (h0 : 0 ≤ blockUnit)
    (h1 : blockUnit < (twoPow63 : Int))
    (h : (ts : Int) * blockUnit < (twoPow63 : Int)) :
    headTimeNs ts blockUnit = (ts : Int) * blockUnit :=
  headTime_mul_eq ts blockUnit h0 h1 h

theorem headTimeNs_exact_witness :
    headTimeNs 1700000000 1000000000 = ((1700000000 : Nat) : Int) * 1000000000 :=
  headTimeNs_exact 1700000000 1000000000 (by decide) (by decide) (by decide)

end GethProxy
